import Mathlib

/-!
Verification of the Overlap client-side editing session controller.

This development shallowly embeds the timeline-interval engine and the job
lifecycle controller of the Overlap frontend (`src/frontend/src/App.tsx`,
`src/frontend/src/services/api.ts`, and the earlier revision of `App.tsx`
shipped as `src/unnamed/part_005`).  Times are modelled as rationals,
JavaScript truthiness on strings as non-emptiness, and optional JSON fields
as `Option` values.
-/

namespace Overlap

/-- Filter descriptor, from the `Filter` interface in
`src/frontend/src/types/index.ts` (restricted to the fields the embedded
code reads: `id`, `name`, `category` and the optional `cssFilter`). -/
structure Filter where
  id : String
  name : String
  category : String
  cssFilter : Option String
deriving Repr, DecidableEq

/-- Timeline interval, from the `TimelineItem` interface in
`src/frontend/src/types/index.ts` (the `parameters?` field is never read or
written by the embedded handlers and is omitted). -/
structure TimelineItem where
  id : String
  filterId : String
  filterName : String
  startTime : ℚ
  endTime : ℚ
  layer : ℕ
  color : Option String
deriving Repr, DecidableEq

/-- Modelled from the spec: the static catalog `FILTERS` is defined in
`src/constants/filters.ts`, which is not among the provided source files.
Spec section 6 and the project documentation list grayscale, sepia and blur
as the available filters, each previewable through a CSS filter string, so
each catalog entry carries a non-empty `cssFilter`.  This is the grayscale
entry; the sepia and blur entries and the catalog itself follow. -/
def filterGrayscale : Filter :=
  { id := "grayscale"
    name := "Grayscale"
    category := "color"
    cssFilter := some "grayscale(100%)" }

/-- Modelled from the spec: the sepia entry of the `FILTERS` catalog. -/
def filterSepia : Filter :=
  { id := "sepia"
    name := "Sepia"
    category := "color"
    cssFilter := some "sepia(100%)" }

/-- Modelled from the spec: the blur entry of the `FILTERS` catalog. -/
def filterBlur : Filter :=
  { id := "blur"
    name := "Blur"
    category := "blur"
    cssFilter := some "blur(5px)" }

/-- Modelled from the spec: the full `FILTERS` catalog. -/
def FILTERS : List Filter := [filterGrayscale, filterSepia, filterBlur]

/-- The catalog lookup performed inside the `appliedFilters` effect:
`FILTERS.find((f) => f.id === item.filterId)?.cssFilter || ''`
(`src/frontend/src/App.tsx` lines 101-104).  A missing entry and a missing
or empty `cssFilter` both yield the empty string. -/
def cssOf (catalog : List Filter) (fid : String) : String :=
  match catalog.find? (fun f => f.id == fid) with
  | some f => f.cssFilter.getD ""
  | none => ""

/-- The time-membership test of the `appliedFilters` effect:
`currentTime >= item.startTime && currentTime <= item.endTime`
(`src/frontend/src/App.tsx` lines 97-99); both endpoints inclusive. -/
def inTime (t : ℚ) (item : TimelineItem) : Bool :=
  decide (item.startTime ≤ t) && decide (t ≤ item.endTime)

/-- The `appliedFilters` effect body (`src/frontend/src/App.tsx` lines
94-108 and `src/unnamed/part_005` lines 71-85): keep the intervals covering
the playback time, map each to its catalog CSS string, then drop falsy
(empty) strings with `.filter(Boolean)`. -/
def appliedFiltersCalc (catalog : List Filter) (t : ℚ)
    (items : List TimelineItem) : List String :=
  ((items.filter (fun item => inTime t item)).map
      (fun item => cssOf catalog item.filterId)).filter (fun s => s != "")

/-- `handleAddFilterToTimeline` (`src/unnamed/part_005` lines 117-134):
the new interval starts at the playhead, ends at
`Math.min(startTime + 5, playerState.duration)`, gets
`layer: timelineItems.length` and `color: selectedFilter.category`, and is
appended to the list.  The generated id is passed in (`generateId()` is an
external source of fresh names). -/
def handleAddFilterToTimeline (items : List TimelineItem) (newId : String)
    (selectedFilter : Filter) (currentTime duration : ℚ) : List TimelineItem :=
  let startTime := currentTime
  let endTime := min (startTime + 5) duration
  let newItem : TimelineItem :=
    { id := newId
      filterId := selectedFilter.id
      filterName := selectedFilter.name
      startTime := startTime
      endTime := endTime
      layer := items.length
      color := some selectedFilter.category }
  items ++ [newItem]

/-- `handleRemoveFilterFromTimeline` (`src/frontend/src/App.tsx` lines
309-311): keep every item whose id differs. -/
def handleRemoveFilterFromTimeline (items : List TimelineItem)
    (id : String) : List TimelineItem :=
  items.filter (fun item => item.id != id)

/-- `handleUpdateFilterInTimeline` (`src/frontend/src/App.tsx` lines
313-323): map over the list, overwriting `startTime`/`endTime` of the item
whose id matches and leaving every other item as is. -/
def handleUpdateFilterInTimeline (items : List TimelineItem) (id : String)
    (startTime endTime : ℚ) : List TimelineItem :=
  items.map (fun item =>
    if item.id == id then
      { item with startTime := startTime, endTime := endTime }
    else item)

/-- A user edit on the timeline: one of the three handlers above. -/
inductive TimelineOp where
  | add (newId : String) (selectedFilter : Filter) (currentTime duration : ℚ)
  | remove (id : String)
  | resize (id : String) (startTime endTime : ℚ)
deriving Repr, DecidableEq

/-- Dispatch one timeline edit to the corresponding handler. -/
def applyOp (items : List TimelineItem) : TimelineOp → List TimelineItem
  | .add newId f t d => handleAddFilterToTimeline items newId f t d
  | .remove i => handleRemoveFilterFromTimeline items i
  | .resize i s e => handleUpdateFilterInTimeline items i s e

/-- Run a sequence of timeline edits from an initial interval list. -/
def applyOps (init : List TimelineItem) (ops : List TimelineOp) : List TimelineItem :=
  ops.foldl applyOp init

/-- The ids of the `add` edits of a sequence, in call order. -/
def addIds : List TimelineOp → List String
  | [] => []
  | .add newId _ _ _ :: ops => newId :: addIds ops
  | .remove _ :: ops => addIds ops
  | .resize _ _ _ :: ops => addIds ops

/-- Whether a timeline edit is a removal. -/
def isRemoveOp : TimelineOp → Bool
  | .remove _ => true
  | .add _ _ _ _ => false
  | .resize _ _ _ => false

/-- An `add` edit draws its filter from the given catalog; other edits
carry no filter. -/
def opUsesCatalog (catalog : List Filter) : TimelineOp → Bool
  | .add _ f _ _ => catalog.contains f
  | .remove _ => true
  | .resize _ _ _ => true

/-- An interval's filter id resolves in the catalog to a non-empty CSS
string, so the active-filter query can render it. -/
def resolvable (catalog : List Filter) (item : TimelineItem) : Prop :=
  cssOf catalog item.filterId ≠ ""

/-- A sample grayscale interval over the range 2 to 8, used in concrete
evaluations below. -/
def sampleItemA : TimelineItem :=
  { id := "A"
    filterId := "grayscale"
    filterName := "Grayscale"
    startTime := 2
    endTime := 8
    layer := 0
    color := some "color" }

/-- The spec section 8 scenario on a 20-second video, expressed through
the source handlers: filter A (grayscale) is added at playhead 2 and
resized to cover 2 to 8; filter B (blur) is added at playhead 5 and
resized to cover 5 to 12. -/
def scenarioOps : List TimelineOp :=
  [ .add "A" filterGrayscale 2 20
    , .resize "A" 2 8
    , .add "B" filterBlur 5 20
    , .resize "B" 5 12 ]

/-! Job lifecycle controller: `handleProcessVideo` and the SSE machinery
(`src/frontend/src/App.tsx` lines 197-307,
`src/frontend/src/services/api.ts` lines 746-775). -/

/-- The `processingStatus` React state
(`src/frontend/src/App.tsx` line 25). -/
inductive ProcStatus where
  | idle
  | processing
  | success
  | error
deriving Repr, DecidableEq

/-- The `progressData` payload of an SSE `progress` event
(`src/frontend/src/App.tsx` lines 29-36).  Every field is optional: the
payload is whatever JSON object arrived, stored wholesale. -/
structure ProgressData where
  current : Option ℚ
  total : Option ℚ
  percentage : Option ℚ
  fps : Option ℚ
  eta_seconds : Option ℚ
  preview_url : Option String
deriving Repr, DecidableEq

/-- The shape of an `ApiResponse` (`src/frontend/src/types/index.ts`):
a success flag with optional data and optional error text. -/
structure ApiResponse (α : Type) where
  success : Bool
  data : Option α
  error : Option String
deriving Repr, DecidableEq

/-- The `data` of a successful `startProcessingJob` response; the code
still guards against a missing or empty `job_id`
(`src/frontend/src/App.tsx` line 219). -/
structure JobStartData where
  job_id : Option String
deriving Repr, DecidableEq

/-- The `stats.video_properties` object read when building the processed
`Video` (`src/frontend/src/App.tsx` lines 254-258). -/
structure VideoProps where
  duration : ℚ
  width : ℚ
  height : ℚ
deriving Repr, DecidableEq

/-- The `data` of a `getJobStatus` response consumed by the `complete`
branch (`src/frontend/src/App.tsx` lines 249-262). -/
structure JobStatusData where
  output_video_id : String
  download_url : String
  stats : Option VideoProps
deriving Repr, DecidableEq

/-- The processed `Video` object built on completion
(`src/frontend/src/App.tsx` lines 249-262), restricted to the fields
computed from the job status payload. -/
structure ProcessedVideo where
  id : String
  url : String
  duration : ℚ
  width : ℚ
  height : ℚ
deriving Repr, DecidableEq

/-- JavaScript `a || b` on an optional string: `none` and the empty string
are falsy. -/
def orDefault (o : Option String) (d : String) : String :=
  match o with
  | some s => if s == "" then d else s
  | none => d

/-- The `job_id` the start-job branch tests for truthiness:
`response.data?.job_id` with missing data or missing id collapsing to the
falsy empty string. -/
def respJobId (resp : ApiResponse JobStartData) : String :=
  (resp.data.bind (fun d => d.job_id)).getD ""

/-- An inbound SSE message after `JSON.parse`
(`src/frontend/src/services/api.ts` lines 754-766): it may fail to parse
(`malformed`), parse to an object whose `type` tag is neither `progress`
nor `status` (`untagged`), or be a tagged `progress` or `status` event. -/
inductive SSEMessage where
  | malformed
  | untagged
  | progress (d : ProgressData)
  | statusEvt (st : String) (err : Option String)
deriving Repr, DecidableEq

/-- Observable external actions taken by the controller. -/
inductive Effect where
  | startJob (videoId : String) (filterType : String)
  | openStream (jobId : String)
  | closeStream
  | fetchStatus (jobId : String)
  | log (msg : String)
deriving Repr, DecidableEq

/-- The controller state: the React state of `App` relevant to the job
lifecycle plus the live-stream bookkeeping.  `streamOpen` is whether the
current `EventSource` connection is open, `refSet` whether
`eventSourceRef.current` holds it, and `fetchPending` whether the
`complete` branch of `onStatus` is suspended on its `getJobStatus` call. -/
structure AppState where
  processingStatus : ProcStatus
  processingError : String
  progressData : Option ProgressData
  processedVideo : Option ProcessedVideo
  isPreviewLoading : Bool
  previewTimestamp : ℚ
  streamOpen : Bool
  refSet : Bool
  currentJobId : Option String
  fetchPending : Bool
deriving Repr, DecidableEq

/-- A quiescent state with an open stream for job `j`, as left by a
successful `handleProcessVideo`. -/
def processingState (j : String) : AppState :=
  { processingStatus := .processing
    processingError := ""
    progressData := none
    processedVideo := none
    isPreviewLoading := false
    previewTimestamp := 0
    streamOpen := true
    refSet := true
    currentJobId := some j
    fetchPending := false }

/-- The close pattern `if (eventSourceRef.current) { close(); null }`
(`src/frontend/src/App.tsx` lines 273-276, 282-285, 294-297). -/
def closeIfRef (s : AppState) : AppState × List Effect :=
  if s.refSet then
    ({ s with refSet := false, streamOpen := false }, [Effect.closeStream])
  else (s, [])

/-- The synchronous body of `handleProcessVideo`
(`src/frontend/src/App.tsx` lines 197-307) up to the creation of the
`EventSource`, parametrised by the awaited `startProcessingJob` response.
A falsy `currentVideo?.video_id` is represented by `none` or the empty
string. -/
def handleProcessVideo (s : AppState) (videoId : Option String)
    (filterType : String) (resp : ApiResponse JobStartData) :
    AppState × List Effect :=
  if videoId.getD "" == "" then
    ({ s with processingError := "No video ID available for processing"
              processingStatus := .error }, [])
  else
    let vid := videoId.getD ""
    let s1 := { s with processingStatus := .processing
                       processingError := ""
                       progressData := none }
    if !resp.success || respJobId resp == "" then
      ({ s1 with processingStatus := .error
                 processingError := orDefault resp.error "Failed to start processing" },
       [Effect.startJob vid filterType])
    else
      ({ s1 with streamOpen := true
                 refSet := true
                 currentJobId := some (respJobId resp)
                 fetchPending := false },
       [Effect.startJob vid filterType, Effect.openStream (respJobId resp)])

/-- The `onProgress` callback (`src/frontend/src/App.tsx` lines 230-237):
replace `progressData` wholesale with the event payload; when the payload
carries a truthy `preview_url`, also flag the preview as loading and stamp
it with `Date.now()` (passed in as `now`). -/
def onProgressCb (s : AppState) (now : ℚ) (d : ProgressData) : AppState :=
  let s1 := { s with progressData := some d }
  if (d.preview_url.getD "") != "" then
    { s1 with isPreviewLoading := true, previewTimestamp := now }
  else s1

/-- The `onError` callback (`src/frontend/src/App.tsx` lines 288-298):
mark the session failed with the connection error message and close the
stream through the ref. -/
def onErrorCb (s : AppState) (message : String) : AppState × List Effect :=
  closeIfRef { s with processingStatus := .error
                      processingError := orDefault (some message) "Connection error" }

/-- An event delivered to the controller's event loop: an SSE message (with
the `Date.now()` value observed while handling it), a transport-level
stream error, or the resolution of the `getJobStatus` call issued by the
`complete` branch. -/
inductive Delivery where
  | sse (m : SSEMessage) (now : ℚ)
  | connError
  | fetchDone (resp : ApiResponse JobStatusData)
deriving Repr, DecidableEq

/-- Build the processed `Video` from a job status payload
(`src/frontend/src/App.tsx` lines 249-262); missing stats default to a
zero duration and a 1920 by 1080 resolution. -/
def mkProcessedVideo (d : JobStatusData) : ProcessedVideo :=
  { id := d.output_video_id
    url := "http://127.0.0.1:8080" ++ d.download_url
    duration := (d.stats.map (fun v => v.duration)).getD 0
    width := (d.stats.map (fun v => v.width)).getD 1920
    height := (d.stats.map (fun v => v.height)).getD 1080 }

/-- One step of the controller's event loop.  SSE deliveries reach the
`onmessage` dispatch of `connectToProgressStream`
(`src/frontend/src/services/api.ts` lines 754-766) only while the
`EventSource` is open; a `status` event with value `complete` issues the
`getJobStatus` fetch and suspends (`fetchPending`), whose resolution is the
`fetchDone` delivery; a `status` event with value `failed` fails the
session and closes the stream synchronously; the transport-level
`onerror` (`src/frontend/src/services/api.ts` lines 768-772) invokes the
`onError` callback and then closes the `EventSource` itself. -/
def step (s : AppState) : Delivery → AppState × List Effect
  | .sse m now =>
    if s.streamOpen then
      match m with
      | .malformed => (s, [Effect.log "Error parsing SSE message:"])
      | .untagged => (s, [])
      | .progress d => (onProgressCb s now d, [])
      | .statusEvt st err =>
        if st == "complete" then
          ({ s with fetchPending := true },
           [Effect.fetchStatus (s.currentJobId.getD "")])
        else if st == "failed" then
          closeIfRef { s with processingStatus := .error
                              processingError := orDefault err "Processing failed" }
        else (s, [])
    else (s, [])
  | .connError =>
    if s.streamOpen then
      let r := onErrorCb s "Unable to communicate with server. The connection was lost."
      ({ r.1 with streamOpen := false },
       Effect.log "SSE connection error:" :: r.2 ++ [Effect.closeStream])
    else (s, [])
  | .fetchDone resp =>
    if s.fetchPending then
      let s1 :=
        match resp.success, resp.data with
        | true, some d =>
          { s with processingStatus := .success
                   processedVideo := some (mkProcessedVideo d) }
        | _, _ => s
      let r := closeIfRef { s1 with fetchPending := false }
      (r.1, r.2)
    else (s, [])

/-- Run the event loop over a list of deliveries, accumulating effects. -/
def run (s : AppState) : List Delivery → AppState × List Effect
  | [] => (s, [])
  | dv :: dvs =>
    let r := step s dv
    let r2 := run r.1 dvs
    (r2.1, r.2 ++ r2.2)

/-- The `disabled` expression of the Process Video button
(`src/frontend/src/App.tsx` line 516):
`isUploadingSample || processingStatus === 'processing' || !currentVideo?.video_id`. -/
def processButtonDisabled (isUploadingSample : Bool) (s : AppState)
    (videoId : Option String) : Bool :=
  isUploadingSample || s.processingStatus == .processing || videoId.getD "" == ""

/-- The first well-formed progress payload of the spec section 8 scenario:
`current` 10, `total` 100, no other fields. -/
def progress10 : ProgressData :=
  { current := some 10
    total := some 100
    percentage := none
    fps := none
    eta_seconds := none
    preview_url := none }

/-- The second well-formed progress payload of the spec section 8
scenario: `current` 20, `total` 100, `percentage` 20. -/
def progress20 : ProgressData :=
  { current := some 20
    total := some 100
    percentage := some 20
    fps := none
    eta_seconds := none
    preview_url := none }

/-- A successful `startProcessingJob` response carrying job id `j`. -/
def okStart (j : String) : ApiResponse JobStartData :=
  { success := true
    data := some { job_id := some j }
    error := none }

/-- A successful `getJobStatus` response for a finished job. -/
def okStatusResp : ApiResponse JobStatusData :=
  { success := true
    data := some { output_video_id := "out1", download_url := "/dl/out1", stats := none }
    error := none }

/-- A session that is Processing job `j1`, holds an open stream, and has
already received one progress event. -/
def busyState : AppState :=
  { processingState "j1" with progressData := some progress10 }

/-! Helper lemmas about the timeline handlers. -/

/-- The update handler stores the given start and end verbatim on every
matching item. -/
lemma update_stores_verbatim (items : List TimelineItem) (id : String)
    (s e : ℚ) :
    ∀ it ∈ handleUpdateFilterInTimeline items id s e,
      it.id = id → it.startTime = s ∧ it.endTime = e := by
  intro it hit hid
  rcases List.mem_map.mp hit with ⟨a, ha, rfl⟩
  by_cases h : a.id == id
  · simp [h]
  · simp only [h, if_neg, Bool.false_eq_true, not_false_iff, ite_false] at hid ⊢
    exact absurd hid (by simpa using h)

/-- The add handler appends exactly the interval built from the playhead
and the catalog filter, with layer equal to the current list length. -/
lemma add_getLast (items : List TimelineItem) (newId : String) (f : Filter)
    (t d : ℚ) :
    (handleAddFilterToTimeline items newId f t d).getLast? =
      some { id := newId
             filterId := f.id
             filterName := f.name
             startTime := t
             endTime := min (t + 5) d
             layer := items.length
             color := some f.category } := by
  simp [handleAddFilterToTimeline]

/-- CLAIM C6.  The claim states that a resize given `end < start` stores
the two values swapped; the code (`handleUpdateFilterInTimeline`,
`src/frontend/src/App.tsx` lines 313-323) stores them verbatim: resizing
the interval `A` to start 10, end 4 yields a stored interval with
startTime 10 and endTime 4, and no stored interval has the swapped values
start 4, end 10. -/
theorem c6_counterexample :
    handleUpdateFilterInTimeline [sampleItemA] "A" 10 4
      = [{ sampleItemA with startTime := 10, endTime := 4 }] ∧
    ¬ ∃ it ∈ handleUpdateFilterInTimeline [sampleItemA] "A" 10 4,
        it.startTime = 4 ∧ it.endTime = 10 := by decide

/-- CLAIM C6 (amended).  Timeline resize stores the given start and end
values verbatim on the matching interval, with no swap even when
`end < start`; the add operation takes no start/end arguments at all: it
appends an interval starting at the playhead and ending at
`min(playhead + 5, duration)`. -/
theorem c6_amended_no_swap (items : List TimelineItem) (id : String)
    (s e : ℚ) (newId : String) (f : Filter) (t d : ℚ) :
    (∀ it ∈ handleUpdateFilterInTimeline items id s e,
        it.id = id → it.startTime = s ∧ it.endTime = e) ∧
    (handleAddFilterToTimeline items newId f t d).getLast? =
      some { id := newId
             filterId := f.id
             filterName := f.name
             startTime := t
             endTime := min (t + 5) d
             layer := items.length
             color := some f.category } :=
  ⟨update_stores_verbatim items id s e, add_getLast items newId f t d⟩

/-- CLAIM C6 (witness). -/
theorem c6_amended_no_swap_witness :
    (∀ it ∈ handleUpdateFilterInTimeline [sampleItemA] "A" 10 4,
        it.id = "A" → it.startTime = 10 ∧ it.endTime = 4) ∧
    (handleAddFilterToTimeline [] "N" filterGrayscale 3 20).getLast? =
      some { id := "N"
             filterId := "grayscale"
             filterName := "Grayscale"
             startTime := 3
             endTime := 8
             layer := 0
             color := some "color" } := by
  have h := c6_amended_no_swap [sampleItemA] "A" 10 4 "N" filterGrayscale 3 20
  have h2 := c6_amended_no_swap [] "A" 10 4 "N" filterGrayscale 3 20
  refine ⟨h.1, ?_⟩
  have hmin : min ((3 : ℚ) + 5) 20 = 8 := by rw [min_def]; norm_num
  simpa [filterGrayscale, hmin] using h2.2

/-- CLAIM C7.  The claim states that a resize clamps start and end into
`[0, duration]`; the code stores out-of-range values verbatim: resizing
interval `A` on a 20-second video to start -5, end 70 stores exactly
-5 and 70, not the clamped 0 and 20. -/
theorem c7_counterexample :
    handleUpdateFilterInTimeline [sampleItemA] "A" (-5) 70
      = [{ sampleItemA with startTime := -5, endTime := 70 }] ∧
    ¬ ∃ it ∈ handleUpdateFilterInTimeline [sampleItemA] "A" (-5) 70,
        it.startTime = 0 ∧ it.endTime = 20 := by decide

/-- CLAIM C7 (amended).  Timeline add and resize never reject their input
(both handlers are total functions), but resize performs no clamping: the
matching interval stores the given start and end verbatim, out of range or
not.  Only add bounds its interval, and only on the right: the appended
interval starts exactly at the playhead and ends at most at the
duration. -/
theorem c7_amended_no_clamp (items : List TimelineItem) (id : String)
    (s e : ℚ) (newId : String) (f : Filter) (t d : ℚ) :
    (∀ it ∈ handleUpdateFilterInTimeline items id s e,
        it.id = id → it.startTime = s ∧ it.endTime = e) ∧
    (∃ new, (handleAddFilterToTimeline items newId f t d).getLast? = some new ∧
        new.startTime = t ∧ new.endTime ≤ d) := by
  refine ⟨update_stores_verbatim items id s e, ?_⟩
  refine ⟨_, add_getLast items newId f t d, rfl, ?_⟩
  exact min_le_right _ _

/-- CLAIM C7 (witness). -/
theorem c7_amended_no_clamp_witness :
    (∀ it ∈ handleUpdateFilterInTimeline [sampleItemA] "A" (-5) 70,
        it.id = "A" → it.startTime = -5 ∧ it.endTime = 70) ∧
    (∃ new, (handleAddFilterToTimeline [] "N" filterGrayscale 3 20).getLast?
        = some new ∧ new.startTime = 3 ∧ new.endTime ≤ 20) :=
  ⟨(c7_amended_no_clamp [sampleItemA] "A" (-5) 70 "N" filterGrayscale 3 20).1,
   (c7_amended_no_clamp [] "A" (-5) 70 "N" filterGrayscale 3 20).2⟩

/-- CLAIM C9.  The active-filter query (`appliedFiltersCalc`,
`src/frontend/src/App.tsx` lines 94-108) yields only non-empty CSS
strings, and its output is unchanged when the intervals whose filter id
does not resolve in the catalog to a non-empty `cssFilter` are removed
from the list beforehand: such intervals stay in the timeline set but
never contribute to the composed filter list at any playback time. -/
theorem c9_unresolvable_excluded (catalog : List Filter) (t : ℚ)
    (items : List TimelineItem) :
    (∀ s ∈ appliedFiltersCalc catalog t items, s ≠ "") ∧
    appliedFiltersCalc catalog t items
      = appliedFiltersCalc catalog t
          (items.filter (fun it => cssOf catalog it.filterId != "")) := by
  constructor
  · intro s hs
    have := (List.mem_filter.mp hs).2
    simpa using this
  · induction items with
    | nil => rfl
    | cons a l ih =>
      by_cases hin : inTime t a = true <;>
        by_cases hcss : cssOf catalog a.filterId = "" <;>
          simp [appliedFiltersCalc, List.filter_cons, hin, hcss] at ih ⊢ <;>
            simpa [appliedFiltersCalc] using ih

/-- CLAIM C9 (witness). -/
theorem c9_unresolvable_excluded_witness :
    ("" : String) ∉ appliedFiltersCalc FILTERS 6 [sampleItemA] ∧
    appliedFiltersCalc FILTERS 6 [sampleItemA]
      = appliedFiltersCalc FILTERS 6
          ([sampleItemA].filter (fun it => cssOf FILTERS it.filterId != "")) := by
  have h := c9_unresolvable_excluded FILTERS 6 [sampleItemA]
  exact ⟨fun hmem => (h.1 "" hmem) rfl, h.2⟩

/-- The update handler does not change the ids of the list. -/
lemma update_map_id (l : List TimelineItem) (i : String) (s e : ℚ) :
    (handleUpdateFilterInTimeline l i s e).map (fun it => it.id)
      = l.map (fun it => it.id) := by
  unfold handleUpdateFilterInTimeline
  rw [List.map_map]
  apply List.map_congr_left
  intro a _
  by_cases hc : a.id == i <;> simp [Function.comp, hc]

/-- The update handler does not change the layers of the list. -/
lemma update_map_layer (l : List TimelineItem) (i : String) (s e : ℚ) :
    (handleUpdateFilterInTimeline l i s e).map (fun it => it.layer)
      = l.map (fun it => it.layer) := by
  unfold handleUpdateFilterInTimeline
  rw [List.map_map]
  apply List.map_congr_left
  intro a _
  by_cases hc : a.id == i <;> simp [Function.comp, hc]

/-- Every catalog filter id resolves in the catalog to a non-empty CSS
string (the modelled catalog has pairwise distinct ids and non-empty
`cssFilter` entries). -/
lemma cssOf_FILTERS_ne : ∀ f ∈ FILTERS, cssOf FILTERS f.id ≠ "" := by decide

/-- The update handler does not change the filter ids: resolvability of
every stored interval is preserved. -/
lemma resolvable_update (l : List TimelineItem) (i : String) (s e : ℚ)
    (h : ∀ it ∈ l, resolvable FILTERS it) :
    ∀ it ∈ handleUpdateFilterInTimeline l i s e, resolvable FILTERS it := by
  intro it hit
  rcases List.mem_map.mp hit with ⟨a, ha, rfl⟩
  have := h a ha
  by_cases hc : a.id == i <;> simp [resolvable, hc] at this ⊢ <;> exact this

/-- Any edit sequence whose adds draw from the catalog keeps every stored
interval resolvable. -/
lemma resolvable_applyOps : ∀ (ops : List TimelineOp),
    (∀ op ∈ ops, opUsesCatalog FILTERS op = true) →
    ∀ init : List TimelineItem, (∀ it ∈ init, resolvable FILTERS it) →
    ∀ it ∈ applyOps init ops, resolvable FILTERS it := by
  intro ops
  induction ops with
  | nil => intro _ init hinit; simpa [applyOps] using hinit
  | cons op ops ih =>
    intro h init hinit
    have htail : ∀ o ∈ ops, opUsesCatalog FILTERS o = true :=
      fun o ho => h o (by simp [ho])
    show ∀ it ∈ applyOps (applyOp init op) ops, resolvable FILTERS it
    apply ih htail
    cases op with
    | add newId f t d =>
      intro it hit
      rcases List.mem_append.mp hit with hmem | hmem
      · exact hinit it hmem
      · have hf : f ∈ FILTERS := by
          have := h (.add newId f t d) (by simp)
          simpa [opUsesCatalog] using this
        have hit2 : it.filterId = f.id := by
          simp only [List.mem_singleton] at hmem
          rw [hmem]
        rw [resolvable, hit2]
        exact cssOf_FILTERS_ne f hf
    | remove i =>
      intro it hit
      exact hinit it (List.mem_of_mem_filter hit)
    | resize i s e =>
      exact resolvable_update init i s e hinit

/-- When every interval resolves to a non-empty CSS string, the
active-filter query returns exactly the covering intervals' CSS strings,
in list order. -/
lemma appliedFilters_exact (catalog : List Filter) (t : ℚ)
    (items : List TimelineItem) (h : ∀ it ∈ items, resolvable catalog it) :
    appliedFiltersCalc catalog t items
      = (items.filter (fun it => inTime t it)).map
          (fun it => cssOf catalog it.filterId) := by
  unfold appliedFiltersCalc
  apply List.filter_eq_self.mpr
  intro s hs
  rcases List.mem_map.mp hs with ⟨it, hit, rfl⟩
  have hmem : it ∈ items := List.mem_of_mem_filter hit
  exact bne_iff_ne.mpr (h it hmem)

/-- The ids of the stored intervals always form a sublist of the add ids
in call order: removals delete, resizes keep position, adds append, so
insertion order is preserved no matter how the edits interleave. -/
lemma applyOps_ids_sublist : ∀ (ops : List TimelineOp)
    (init : List TimelineItem),
    ((applyOps init ops).map (fun it => it.id)).Sublist
      (init.map (fun it => it.id) ++ addIds ops) := by
  intro ops
  induction ops with
  | nil =>
    intro init
    simp [applyOps, addIds]
  | cons op ops ih =>
    intro init
    show ((applyOps (applyOp init op) ops).map (fun it => it.id)).Sublist _
    refine (ih (applyOp init op)).trans ?_
    cases op with
    | add newId f t d =>
      have heq : ((applyOp init (.add newId f t d)).map (fun it => it.id))
            ++ addIds ops
          = init.map (fun it => it.id)
            ++ addIds (.add newId f t d :: ops) := by
        simp [applyOp, handleAddFilterToTimeline, addIds]
      rw [heq]
    | remove i =>
      simp only [applyOp, handleRemoveFilterFromTimeline, addIds]
      exact ((List.filter_sublist _).map _).append_right _
    | resize i s e =>
      simp only [applyOp, addIds]
      rw [update_map_id]

/-- CLAIM C1.  The active-filter query is exact and insertion-ordered:
(1) when every stored interval resolves in the catalog, the query at time
t returns precisely the CSS strings of the intervals with
startTime ≤ t ≤ endTime (both endpoints inclusive), in list order;
(2) every edit sequence drawing its adds from the catalog keeps all stored
intervals resolvable; (3) after any sequence of add/remove/resize calls
the stored intervals' ids form a sublist of the add ids in call order, so
the query order is the insertion order, independent of interleaved edits
on unrelated intervals; (4) in the concrete scenario, filter A over 2 to 8
and filter B over 5 to 12 on a 20-second video give the query at t = 6 the
value A then B, and the query at t = 15 the empty list. -/
theorem c1_active_exact_ordered :
    (∀ (catalog : List Filter) (t : ℚ) (items : List TimelineItem),
        (∀ it ∈ items, resolvable catalog it) →
        appliedFiltersCalc catalog t items
          = (items.filter (fun it => inTime t it)).map
              (fun it => cssOf catalog it.filterId)) ∧
    (∀ ops : List TimelineOp, (∀ op ∈ ops, opUsesCatalog FILTERS op = true) →
        ∀ it ∈ applyOps [] ops, resolvable FILTERS it) ∧
    (∀ ops : List TimelineOp,
        ((applyOps [] ops).map (fun it => it.id)).Sublist (addIds ops)) ∧
    appliedFiltersCalc FILTERS 6 (applyOps [] scenarioOps)
      = ["grayscale(100%)", "blur(5px)"] ∧
    appliedFiltersCalc FILTERS 15 (applyOps [] scenarioOps) = [] := by
  refine ⟨appliedFilters_exact, ?_, ?_, ?_, ?_⟩
  · intro ops h
    exact resolvable_applyOps ops h [] (by simp)
  · intro ops
    simpa using applyOps_ids_sublist ops []
  · decide
  · decide

/-- CLAIM C1 (witness). -/
theorem c1_active_exact_ordered_witness :
    appliedFiltersCalc FILTERS 6 [sampleItemA]
      = ([sampleItemA].filter (fun it => inTime 6 it)).map
          (fun it => cssOf FILTERS it.filterId) ∧
    (∀ it ∈ applyOps [] scenarioOps, resolvable FILTERS it) := by
  have h := c1_active_exact_ordered
  refine ⟨h.1 FILTERS 6 [sampleItemA] ?_, h.2.1 scenarioOps ?_⟩
  · intro it hit
    fin_cases hit
    exact (by decide : cssOf FILTERS sampleItemA.filterId ≠ "")
  · decide

/-- CLAIM C10.  The update handler preserves list length and the item at
every position: the matching item keeps its id, filterId, filterName,
layer and color and takes exactly the given startTime and endTime, while
every item with a different id is completely unchanged. -/
theorem c10_update_frame (items : List TimelineItem) (id : String)
    (s e : ℚ) :
    (handleUpdateFilterInTimeline items id s e).length = items.length ∧
    ∀ (i : ℕ) (hi : i < items.length)
      (hr : i < (handleUpdateFilterInTimeline items id s e).length),
      ((handleUpdateFilterInTimeline items id s e).get ⟨i, hr⟩).id
          = (items.get ⟨i, hi⟩).id ∧
      ((handleUpdateFilterInTimeline items id s e).get ⟨i, hr⟩).filterId
          = (items.get ⟨i, hi⟩).filterId ∧
      ((handleUpdateFilterInTimeline items id s e).get ⟨i, hr⟩).filterName
          = (items.get ⟨i, hi⟩).filterName ∧
      ((handleUpdateFilterInTimeline items id s e).get ⟨i, hr⟩).layer
          = (items.get ⟨i, hi⟩).layer ∧
      ((handleUpdateFilterInTimeline items id s e).get ⟨i, hr⟩).color
          = (items.get ⟨i, hi⟩).color ∧
      ((items.get ⟨i, hi⟩).id = id →
        ((handleUpdateFilterInTimeline items id s e).get ⟨i, hr⟩).startTime = s ∧
        ((handleUpdateFilterInTimeline items id s e).get ⟨i, hr⟩).endTime = e) ∧
      ((items.get ⟨i, hi⟩).id ≠ id →
        (handleUpdateFilterInTimeline items id s e).get ⟨i, hr⟩
          = items.get ⟨i, hi⟩) := by
  refine ⟨by simp [handleUpdateFilterInTimeline], ?_⟩
  intro i hi hr
  have hget : (handleUpdateFilterInTimeline items id s e).get ⟨i, hr⟩
      = if (items.get ⟨i, hi⟩).id == id then
          { items.get ⟨i, hi⟩ with startTime := s, endTime := e }
        else items.get ⟨i, hi⟩ := by
    simp [handleUpdateFilterInTimeline]
  rw [hget]
  by_cases hid : (items.get ⟨i, hi⟩).id = id
  · rw [List.get_eq_getElem] at hid
    simp [hid]
  · rw [List.get_eq_getElem] at hid
    simp [hid]

/-- In a removal-free edit sequence the layers stay an initial segment of
the naturals: layer assignment by current list length never collides as
long as nothing is removed. -/
lemma layers_range : ∀ (ops : List TimelineOp),
    (∀ op ∈ ops, isRemoveOp op = false) →
    ∀ init : List TimelineItem,
      init.map (fun it => it.layer) = List.range init.length →
      (applyOps init ops).map (fun it => it.layer)
        = List.range (applyOps init ops).length := by
  intro ops
  induction ops with
  | nil => intro _ init hinit; simpa [applyOps] using hinit
  | cons op ops ih =>
    intro h init hinit
    have htail : ∀ o ∈ ops, isRemoveOp o = false := fun o ho => h o (by simp [ho])
    show (applyOps (applyOp init op) ops).map _ = _
    apply ih htail
    cases op with
    | add newId f t d =>
      simp [applyOp, handleAddFilterToTimeline, hinit, List.range_succ]
    | remove i =>
      have := h (.remove i) (by simp)
      simp [isRemoveOp] at this
    | resize i s e =>
      have hlen : (handleUpdateFilterInTimeline init i s e).length = init.length := by
        simp [handleUpdateFilterInTimeline]
      simp only [applyOp]
      rw [update_map_layer, hlen, hinit]

/-- CLAIM C8.  The claim states that every add assigns a layer unused by
any stored interval, so layers stay pairwise distinct; the code assigns
`layer: timelineItems.length`, which collides after a removal: add A,
add B, remove A, add C leaves two intervals that both carry layer 1. -/
theorem c8_counterexample :
    ((applyOps [] [.add "A" filterGrayscale 0 20, .add "B" filterSepia 0 20,
        .remove "A", .add "C" filterBlur 0 20]).map (fun it => it.layer))
      = [1, 1] ∧
    ¬ (((applyOps [] [.add "A" filterGrayscale 0 20, .add "B" filterSepia 0 20,
        .remove "A", .add "C" filterBlur 0 20]).map
          (fun it => it.layer)).Nodup) := by
  constructor
  · decide
  · decide

/-- CLAIM C8 (amended).  Every add assigns the new interval the layer
equal to the number of intervals currently stored; in any edit sequence
without removals the stored layers are exactly `0, 1, ...` and hence
pairwise distinct, but a removal followed by an add can duplicate a
layer. -/
theorem c8_amended_layers (items : List TimelineItem) (newId : String)
    (f : Filter) (t d : ℚ) :
    ((handleAddFilterToTimeline items newId f t d).getLast?.map
        (fun it => it.layer)) = some items.length ∧
    (∀ ops : List TimelineOp, (∀ op ∈ ops, isRemoveOp op = false) →
        (((applyOps [] ops).map (fun it => it.layer)).Nodup)) := by
  constructor
  · simp [handleAddFilterToTimeline]
  · intro ops h
    have := layers_range ops h [] (by simp)
    rw [this]
    exact List.nodup_range _

/-- CLAIM C8 (witness). -/
theorem c8_amended_layers_witness :
    ((handleAddFilterToTimeline [sampleItemA] "N" filterSepia 0 20).getLast?.map
        (fun it => it.layer)) = some 1 ∧
    (((applyOps [] [.add "A" filterGrayscale 0 20,
        .resize "A" 2 8]).map (fun it => it.layer)).Nodup) := by
  have h := c8_amended_layers [sampleItemA] "N" filterSepia 0 20
  exact ⟨h.1, h.2 [.add "A" filterGrayscale 0 20, .resize "A" 2 8]
    (by intro op hop; fin_cases hop <;> rfl)⟩

/-- CLAIM C10 (witness). -/
theorem c10_update_frame_witness :
    (handleUpdateFilterInTimeline [sampleItemA] "A" 3 7).length = 1 ∧
    ((handleUpdateFilterInTimeline [sampleItemA] "A" 3 7).get
        ⟨0, by decide⟩).layer = ([sampleItemA].get ⟨0, by decide⟩).layer := by
  have h := c10_update_frame [sampleItemA] "A" 3 7
  exact ⟨h.1, (h.2 0 (by decide) (by simp [h.1])).2.2.2.1⟩

/-! Job lifecycle claims. -/

/-- CLAIM C2.  The claim states that starting processing while the session
is already Processing is rejected and leaves the live job and stream
untouched; the code performs no such check: invoking `handleProcessVideo`
on a Processing session with an open stream for job j1 starts a new
backend job, opens a new stream for j2, replaces the tracked job id and
wipes the existing progress snapshot — with no surfaced precondition
error. -/
theorem c2_counterexample :
    (handleProcessVideo busyState (some "v1") "grayscale" (okStart "j2")).2
      = [Effect.startJob "v1" "grayscale", Effect.openStream "j2"] ∧
    (handleProcessVideo busyState (some "v1") "grayscale"
        (okStart "j2")).1.currentJobId = some "j2" ∧
    (handleProcessVideo busyState (some "v1") "grayscale"
        (okStart "j2")).1.progressData = none ∧
    (handleProcessVideo busyState (some "v1") "grayscale"
        (okStart "j2")).1.processingError = "" := by decide

/-- CLAIM C2 (amended).  The single-live-job rule is enforced only as a UI
affordance: while the session is Processing, the Process Video button is
disabled; the start-processing handler itself performs no precondition
check, and invoked directly on a Processing session with a successful
backend response it starts a new job, opens a new stream, resets the
progress snapshot and replaces the tracked job id. -/
theorem c2_amended_button_only (s : AppState) (u : Bool) (vid j : String)
    (hs : s.processingStatus = .processing) (hv : vid ≠ "") (hj : j ≠ "") :
    processButtonDisabled u s (some vid) = true ∧
    (handleProcessVideo s (some vid) "grayscale" (okStart j)).2
      = [Effect.startJob vid "grayscale", Effect.openStream j] ∧
    (handleProcessVideo s (some vid) "grayscale" (okStart j)).1.progressData
      = none ∧
    (handleProcessVideo s (some vid) "grayscale" (okStart j)).1.currentJobId
      = some j := by
  have hvid : ((some vid).getD "" == "") = false := by
    simpa using hv
  have hjid : (respJobId (okStart j) == "") = false := by
    simpa [respJobId, okStart] using hj
  refine ⟨by simp [processButtonDisabled, hs], ?_⟩
  simp [handleProcessVideo, hvid, hjid, respJobId, okStart, hv, hj]

/-- CLAIM C2 (witness). -/
theorem c2_amended_button_only_witness :
    processButtonDisabled false busyState (some "v1") = true ∧
    (handleProcessVideo busyState (some "v1") "grayscale" (okStart "j2")).2
      = [Effect.startJob "v1" "grayscale", Effect.openStream "j2"] := by
  have h := c2_amended_button_only busyState false "v1" "j2" (by decide)
    (by decide) (by decide)
  exact ⟨h.1, h.2.1⟩

/-- CLAIM C3.  The claim states that on a stream connection loss the
controller performs one authoritative `getJobStatus` re-check before
declaring failure; the code's `onError` path declares failure immediately:
from a Processing session, a transport-level stream error sets the status
to error and emits only a log and two stream closes — no status fetch
occurs before the failure is declared. -/
theorem c3_counterexample :
    (step (processingState "j1") .connError).1.processingStatus = .error ∧
    (step (processingState "j1") .connError).1.processingError
      = "Unable to communicate with server. The connection was lost." ∧
    (step (processingState "j1") .connError).2
      = [Effect.log "SSE connection error:", Effect.closeStream,
         Effect.closeStream] := by decide

/-- CLAIM C3 (amended).  On a transport-level connection loss the
controller transitions directly to the error state carrying the
connection-lost message and closes the stream, issuing no `getJobStatus`
re-check at all. -/
theorem c3_amended_no_recheck (s : AppState) (h : s.streamOpen = true) :
    (step s .connError).1.processingStatus = .error ∧
    (step s .connError).1.streamOpen = false ∧
    ∀ j, Effect.fetchStatus j ∉ (step s .connError).2 := by
  by_cases hr : s.refSet <;>
    simp [step, h, onErrorCb, closeIfRef, orDefault, hr]

/-- CLAIM C3 (witness). -/
theorem c3_amended_no_recheck_witness :
    (step (processingState "j9") .connError).1.processingStatus = .error ∧
    Effect.fetchStatus "j9" ∉ (step (processingState "j9") .connError).2 :=
  ⟨(c3_amended_no_recheck (processingState "j9") (by decide)).1,
   (c3_amended_no_recheck (processingState "j9") (by decide)).2.2 "j9"⟩

/-- CLAIM C4.  The claim states that once terminal processing has begun,
any later progress event is discarded; in the code the `complete` branch
suspends on `getJobStatus` before closing the stream, and a progress event
delivered during that suspension is still applied: after status complete,
then a progress event, then the fetch resolution, the snapshot holds the
late progress payload (and the session still ends in success with the
stream closed). -/
theorem c4_counterexample :
    (run (processingState "j1")
        [.sse (.statusEvt "complete" none) 0, .sse (.progress progress20) 0,
         .fetchDone okStatusResp]).1.progressData = some progress20 ∧
    (run (processingState "j1")
        [.sse (.statusEvt "complete" none) 0, .sse (.progress progress20) 0,
         .fetchDone okStatusResp]).1.processingStatus = .success ∧
    (run (processingState "j1")
        [.sse (.statusEvt "complete" none) 0, .sse (.progress progress20) 0,
         .fetchDone okStatusResp]).1.streamOpen = false := by decide

/-- CLAIM C4 (amended).  A terminal `failed` status event fails the
session and closes the subscription synchronously; a terminal `complete`
event closes the subscription when its `getJobStatus` fetch resolves; once
the subscription is closed, every further stream event is ignored
entirely; but a progress event delivered while the subscription is still
open — including during the pending terminal fetch — is applied to the
snapshot, not discarded. -/
theorem c4_amended_terminal_last (s : AppState) (m : SSEMessage) (now : ℚ)
    (err : Option String) (resp : ApiResponse JobStatusData)
    (d : ProgressData) :
    (s.streamOpen = false → step s (.sse m now) = (s, [])) ∧
    (s.streamOpen = true → s.refSet = true →
      (step s (.sse (.statusEvt "failed" err) now)).1.streamOpen = false ∧
      (step s (.sse (.statusEvt "failed" err) now)).1.processingStatus
        = .error ∧
      Effect.closeStream ∈ (step s (.sse (.statusEvt "failed" err) now)).2) ∧
    (s.fetchPending = true → s.refSet = true →
      (step s (.fetchDone resp)).1.streamOpen = false ∧
      Effect.closeStream ∈ (step s (.fetchDone resp)).2) ∧
    (s.streamOpen = true →
      (step s (.sse (.progress d) now)).1.progressData = some d) := by
  refine ⟨?_, ?_, ?_, ?_⟩
  · intro h
    simp [step, h]
  · intro h hr
    simp [step, h, closeIfRef, hr, orDefault]
  · intro hp hr
    rcases resp with ⟨su, da, er⟩
    cases su <;> cases da <;> simp [step, hp, closeIfRef, hr]
  · intro h
    by_cases hu : (d.preview_url.getD "") != "" <;>
      simp [step, h, onProgressCb, hu]

/-- CLAIM C4 (witness). -/
theorem c4_amended_terminal_last_witness :
    (step { processingState "j1" with streamOpen := false }
        (.sse (.progress progress10) 0))
      = ({ processingState "j1" with streamOpen := false }, []) ∧
    (step (processingState "j1")
        (.sse (.statusEvt "failed" none) 0)).1.streamOpen = false := by
  have h := c4_amended_terminal_last
    { processingState "j1" with streamOpen := false }
    (.progress progress10) 0 none okStatusResp progress10
  have h2 := c4_amended_terminal_last (processingState "j1")
    (.progress progress10) 0 none okStatusResp progress10
  exact ⟨h.1 (by decide), (h2.2.1 (by decide) (by decide)).1⟩

/-- CLAIM C5.  A well-formed progress event replaces the whole snapshot
with its payload (never merged field by field), malformed and untagged
stream messages leave the state untouched, and in the spec scenario the
snapshot after progress 10 of 100, a malformed event, then progress 20 of
100 at 20 percent equals exactly the second well-formed payload — in
between it equals exactly the first payload, whose percentage field is
absent rather than stale. -/
theorem c5_snapshot_wholesale (s : AppState) (now : ℚ) (d : ProgressData) :
    (s.streamOpen = true →
      (step s (.sse (.progress d) now)).1.progressData = some d) ∧
    (s.streamOpen = true →
      (step s (.sse .malformed now)).1 = s ∧
      (step s (.sse .untagged now)).1 = s) ∧
    (run (processingState "j1")
        [.sse (.progress progress10) 0, .sse .malformed 0]).1.progressData
      = some progress10 ∧
    progress10.percentage = none ∧
    (run (processingState "j1")
        [.sse (.progress progress10) 0, .sse .malformed 0,
         .sse (.progress progress20) 0]).1.progressData = some progress20 := by
  refine ⟨?_, ?_, by decide, by decide, by decide⟩
  · intro h
    by_cases hu : (d.preview_url.getD "") != "" <;>
      simp [step, h, onProgressCb, hu]
  · intro h
    simp [step, h]

/-- CLAIM C5 (witness). -/
theorem c5_snapshot_wholesale_witness :
    (step (processingState "j1") (.sse (.progress progress20) 0)).1.progressData
      = some progress20 ∧
    (step (processingState "j1") (.sse .malformed 0)).1 = processingState "j1" :=
  ⟨(c5_snapshot_wholesale (processingState "j1") 0 progress20).1 (by decide),
   ((c5_snapshot_wholesale (processingState "j1") 0 progress20).2.1
      (by decide)).1⟩

end Overlap
